import Mathlib

/-!
Verification of the CORgiS-API middleware (Go) against its natural-language
specification, via a shallow embedding of the relevant source functions.

Shared state and I/O are made explicit: functions that read reply lines from
the serial channel take the sequence of lines the device would deliver as an
explicit argument, and return the list of command lines they write.  A call
to Go's `check(err)` (which panics) is modelled by an error outcome
(`none` / `.panicked`).  Strings on the wire are ASCII, so Go's byte-indexed
operations coincide with the character-list model used here.
-/

/-- A decoded snapshot: field name to signed integer value, as built by
`outputToMap` (src/main.go:97-114).  Go's `map[string]interface{}` with
last-write-wins assignment is modelled as an association list with
overwriting insertion, so keys are unique and `List.lookup` is the map read. -/
abbrev Frame := List (String × Int)

/-- Go `\w` (ASCII word character), used by the field pattern
`\w{3,4}=\w{1,4};` compiled at src/main.go:38. -/
def isWordChar (c : Char) : Bool :=
  c.isAlphanum || c == '_'

/-- Consume exactly `n` word characters, returning the remaining input. -/
def takeWord : Nat → List Char → Option (List Char)
  | 0, cs => some cs
  | _ + 1, [] => none
  | n + 1, c :: cs => if isWordChar c then takeWord n cs else none

/-- After the name part of the pattern: try the value lengths in greedy
order; each attempt requires the value's word characters to be followed by
the terminator. -/
def tryValue : List Nat → List Char → Option (List Char)
  | [], _ => none
  | m :: ms, cs =>
    match takeWord m cs with
    | some (';' :: r) => some r
    | _ => tryValue ms cs

/-- Match `=\w{1,4};` (value part of the field pattern), greedy. -/
def matchTail : List Char → Option (List Char)
  | '=' :: r => tryValue [4, 3, 2, 1] r
  | _ => none

/-- Match the field pattern `\w{3,4}=\w{1,4};` at the head of the input,
with the backtracking preference of Go's regexp (greedy name length 4
before 3), returning the input remaining after the match.  At any given
position at most one alternative can succeed, because a word character and
the literal `=` / terminator are disjoint. -/
def matchAt (cs : List Char) : Option (List Char) :=
  match takeWord 4 cs with
  | some r =>
    match matchTail r with
    | some r2 => some r2
    | none =>
      match takeWord 3 cs with
      | some r3 => matchTail r3
      | none => none
  | none =>
    match takeWord 3 cs with
    | some r3 => matchTail r3
    | none => none

/-- Count the non-overlapping leftmost matches of the field pattern, as
`re.FindAll(s, -1)` does: scan left to right, and restart after the end of
each match.  The first argument is fuel; every step consumes at least one
character, so fuel equal to the input length (as used by `countMatches`)
is never exhausted. -/
def countFrom : Nat → List Char → Nat
  | _, [] => 0
  | 0, _ :: _ => 0
  | f + 1, c :: rest =>
    match matchAt (c :: rest) with
    | some r => 1 + countFrom f r
    | none => countFrom f rest

/-- `len(re.FindAll([]byte(s), -1))` for the field pattern of src/main.go:38. -/
def countMatches (s : String) : Nat :=
  countFrom s.data.length s.data

/-- `outputIsValid` (src/main.go:84-94): length over 168, sentinel first
field, terminator at the end, at least 28 pattern matches. -/
def outputIsValid (s : String) : Bool :=
  if 168 < s.length then
    if s.data.take 4 = ['V', '0', '0', '='] ∧ s.data.getLast? = some ';' ∧
        28 ≤ countMatches s then
      true
    else false
  else false

/-- The near-identical `outputIsValid` of the unnamed source file
(src/unnamed/part_000:12-22), which additionally caps the length at 214. -/
def outputIsValidU (s : String) : Bool :=
  if 168 < s.length ∧ s.length < 215 then
    if s.data.take 4 = ['V', '0', '0', '='] ∧ s.data.getLast? = some ';' ∧
        28 ≤ countMatches s then
      true
    else false
  else false

/-- `strings.Split` for a one-character separator (Go semantics: always at
least one group; a trailing separator yields a trailing empty group). -/
def splitChar (sep : Char) : List Char → List (List Char)
  | [] => [[]]
  | c :: rest =>
    match splitChar sep rest with
    | g :: gs => if c = sep then [] :: g :: gs else (c :: g) :: gs
    | [] => [[]]

/-- Value of one digit character, any base up to 36, both letter cases,
as accepted by Go's `strconv.ParseInt`. -/
def digitVal (c : Char) : Option Nat :=
  if '0' ≤ c ∧ c ≤ '9' then some (c.toNat - 48)
  else if 'a' ≤ c ∧ c ≤ 'z' then some (c.toNat - 87)
  else if 'A' ≤ c ∧ c ≤ 'Z' then some (c.toNat - 55)
  else none

/-- Accumulate digits in the given base; any character that is not a digit
of the base fails the whole parse. -/
def parseDigitsAux (base : Nat) (acc : Nat) : List Char → Option Nat
  | [] => some acc
  | c :: cs =>
    match digitVal c with
    | some d => if d < base then parseDigitsAux base (acc * base + d) cs else none
    | none => none

/-- `strconv.ParseInt(s, base, 64)` on a character list: optional sign, at
least one digit, all digits legal for the base, result within the signed
64-bit range; `none` models a non-nil error. -/
def parseIntList (base : Nat) (cs : List Char) : Option Int :=
  let sd : Bool × List Char :=
    match cs with
    | '+' :: r => (false, r)
    | '-' :: r => (true, r)
    | r => (false, r)
  match sd.2 with
  | [] => none
  | _ =>
    match parseDigitsAux base 0 sd.2 with
    | none => none
    | some n =>
      let v : Int := if sd.1 then -(n : Int) else (n : Int)
      if -(2 ^ 63) ≤ v ∧ v ≤ 2 ^ 63 - 1 then some v else none

/-- `strconv.ParseInt(s, base, 64)` on a string. -/
def parseIntGo (base : Nat) (s : String) : Option Int :=
  parseIntList base s.data

/-- Insert into the decoded map with Go's map-assignment semantics: a later
assignment to the same key overwrites the earlier one. -/
def mapInsert (m : Frame) (k : String) (v : Int) : Frame :=
  m.filter (fun kv => kv.1 != k) ++ [(k, v)]

/-- One `name=value` segment of `outputToMap` (src/main.go:97-114): split on
`=`; a segment with no `=` makes Go index out of range (panic, modelled
`none`); a segment whose raw text begins with `V` is parsed in base 16,
any other in base 10; `check(err)` panics on a parse failure (`none`). -/
def parseField (g : List Char) : Option (String × Int) :=
  match splitChar '=' g with
  | name :: val :: _ =>
    match g with
    | 'V' :: _ => (parseIntList 16 val).map (fun n => (String.mk name, n))
    | _ => (parseIntList 10 val).map (fun n => (String.mk name, n))
  | _ => none

/-- Fold of `outputToMap`'s loop over the segments before the final
terminator; the first field failure aborts the whole decode (panic). -/
def outputToMapFields : Frame → List (List Char) → Option Frame
  | res, [] => some res
  | res, g :: gs =>
    match parseField g with
    | none => none
    | some kv => outputToMapFields (mapInsert res kv.1 kv.2) gs

/-- `outputToMap` (src/main.go:97-114): split the line on `;`, drop the last
(empty) group, decode every segment.  `none` models the `check(err)` panic. -/
def outputToMap (s : String) : Option Frame :=
  outputToMapFields [] ((splitChar ';' s.data).dropLast)

/-- The level-parameter registry `VxxParams` (src/main.go:40). -/
def VxxParams : List String :=
  ["V00", "V01", "V02", "V03", "V04", "V05", "V06", "V07", "V08"]

/-- The threshold-parameter registry `TxxParams` (src/main.go:41). -/
def TxxParams : List String :=
  ["T01", "T02", "T03", "T04", "T05", "T06", "T07", "T08"]

/-- The toggle-parameter registry `pumpParams` (src/main.go:42). -/
def pumpParams : List String :=
  ["PUMP_ON", "PUMP_OFF"]

/-- `stringInSlice` (src/main.go:322-329). -/
def stringInSlice (a : String) : List String → Bool
  | [] => false
  | b :: rest => if b = a then true else stringInSlice a rest

/-- `URLValueValid` (src/main.go:332-347): a non-empty value must parse in
base 10 and fall in the class's half-open range; an empty value is accepted
exactly for the toggle parameters. -/
def URLValueValid (p v : String) : Bool :=
  if 0 < v.length then
    match parseIntGo 10 v with
    | none => false
    | some valueToInt =>
      if stringInSlice p VxxParams = true ∧ 0 ≤ valueToInt ∧ valueToInt < 256 then true
      else if stringInSlice p TxxParams = true ∧ 0 ≤ valueToInt ∧ valueToInt < 1000 then true
      else false
  else if stringInSlice p pumpParams then true
  else false

/-- `URLParamValid` (src/main.go:350-356). -/
def URLParamValid (s : String) : Bool :=
  if stringInSlice s VxxParams = true ∨ stringInSlice s TxxParams = true ∨
      stringInSlice s pumpParams = true then
    true
  else false

/-- Outcome of one confirmation-polling or snapshot-reading loop over an
injected stream of reply lines: `ok` — the loop returned the frame;
`panicked` — `check(err)` aborted (decode panic); `blocked` — the injected
stream is exhausted and the loop is still polling (it has not returned). -/
inductive PollResult where
  | ok (f : Frame)
  | panicked
  | blocked
deriving DecidableEq

/-- The level-parameter confirmation loop of `setHandler`
(src/main.go:231-246) with `singleOutputRead` (src/main.go:306-319)
inlined: each attempt writes `<GET_ALL;>` and reads the next reply line;
lines failing `outputIsValid` are read again (that is the inner
`singleOutputRead` loop); a valid line is decoded (decode panic aborts);
the loop returns the frame once the decoded value of the parameter equals
the requested integer, else it polls again.  The first component is the
list of command lines written to the channel. -/
def pollVxx (param : String) (target : Int) : List String → List String × PollResult
  | [] => (["<GET_ALL;>"], .blocked)
  | r :: rest =>
    if outputIsValid r then
      match outputToMap r with
      | none => (["<GET_ALL;>"], .panicked)
      | some f =>
        if List.lookup param f = some target then (["<GET_ALL;>"], .ok f)
        else
          let next := pollVxx param target rest
          ("<GET_ALL;>" :: next.1, next.2)
    else
      let next := pollVxx param target rest
      ("<GET_ALL;>" :: next.1, next.2)

/-- The toggle confirmation loop of `setHandler` (src/main.go:260-280) with
`singleOutputRead` inlined, over reply lines: returns once `PUMP` decodes
to 1 (for `PUMP_ON`) or 0 (for `PUMP_OFF`). -/
def pollPumpS (param : String) : List String → List String × PollResult
  | [] => (["<GET_ALL;>"], .blocked)
  | r :: rest =>
    if outputIsValid r then
      match outputToMap r with
      | none => (["<GET_ALL;>"], .panicked)
      | some f =>
        if param = "PUMP_ON" ∧ List.lookup "PUMP" f = some 1 then (["<GET_ALL;>"], .ok f)
        else if param = "PUMP_OFF" ∧ List.lookup "PUMP" f = some 0 then (["<GET_ALL;>"], .ok f)
        else
          let next := pollPumpS param rest
          ("<GET_ALL;>" :: next.1, next.2)
    else
      let next := pollPumpS param rest
      ("<GET_ALL;>" :: next.1, next.2)

/-- One `outputToMap(singleOutputRead())` read, as done by the threshold
branch of `setHandler` (src/main.go:282-288) and by `getHandler`
(src/main.go:291-297): read until a line passes validation, then decode it. -/
def readSnapshot : List String → List String × PollResult
  | [] => (["<GET_ALL;>"], .blocked)
  | r :: rest =>
    if outputIsValid r then
      match outputToMap r with
      | none => (["<GET_ALL;>"], .panicked)
      | some f => (["<GET_ALL;>"], .ok f)
    else
      let next := readSnapshot rest
      ("<GET_ALL;>" :: next.1, next.2)

/-- What `setHandler` writes back to the HTTP client. -/
inductive SetResponse where
  | errParam
  | errValue
  | errUnexpected
  | ok (f : Frame)
  | panicked
  | blocked
deriving DecidableEq

/-- Lift a polling outcome to the handler's response. -/
def toResponse : PollResult → SetResponse
  | .ok f => .ok f
  | .panicked => .panicked
  | .blocked => .blocked

/-- The command line built by `setHandler` (src/main.go:227-237): toggle
parameters (detected by the `PUMP` name prefix) encode as `<NAME;>`, any
other as `<SET_NAME=VALUE;>`. -/
def encodeCommand (param value : String) : String :=
  if param.data.take 4 = ['P', 'U', 'M', 'P'] then "<" ++ param ++ ";>"
  else "<SET_" ++ param ++ "=" ++ value ++ ";>"

/-- `setHandler` (src/main.go:210-289) over an injected stream of reply
lines.  Returns the full list of command lines written to the serial
channel, and the response: the parameter and the value are validated
before any channel write; then the command is written and the
class-specific confirmation runs.  The `ParseInt` of the already-validated
value is kept with its `check(err)` panic branch. -/
def setHandler (param value : String) (replies : List String) :
    List String × SetResponse :=
  if !URLParamValid param then ([], .errParam)
  else if !URLValueValid param value then ([], .errValue)
  else
    let command := encodeCommand param value
    if stringInSlice param VxxParams then
      match parseIntGo 10 value with
      | none => ([command], .panicked)
      | some valueToInt =>
        let p := pollVxx param valueToInt replies
        (command :: p.1, toResponse p.2)
    else if stringInSlice param pumpParams then
      let p := pollPumpS param replies
      (command :: p.1, toResponse p.2)
    else if stringInSlice param TxxParams then
      let p := readSnapshot replies
      (command :: p.1, toResponse p.2)
    else ([command], .errUnexpected)

/-- Outcome of one telemetry cycle (`DB_routine`, src/main.go:57-80):
`wrote f` — the decoded frame was forwarded to the database sink;
`skipped` — the line failed validation, nothing written, next cycle;
`panicked` — validation passed but `outputToMap`'s `check(err)` aborted. -/
inductive CycleResult where
  | wrote (f : Frame)
  | skipped
  | panicked
deriving DecidableEq

/-- The body of the telemetry loop for one received line
(src/main.go:68-77): validate, decode, write to the sink. -/
def dbCycle (line : String) : CycleResult :=
  if outputIsValid line then
    match outputToMap line with
    | some f => .wrote f
    | none => .panicked
  else .skipped

/-- The toggle confirmation loop body of `setHandler` (src/main.go:260-280)
over a fed sequence of already-decoded snapshots: return the snapshot once
its `PUMP` field carries the expected encoding, else poll on. -/
def pumpLoop (param : String) : List Frame → Option Frame
  | [] => none
  | f :: rest =>
    if param = "PUMP_ON" ∧ List.lookup "PUMP" f = some 1 then some f
    else if param = "PUMP_OFF" ∧ List.lookup "PUMP" f = some 0 then some f
    else pumpLoop param rest

/-- Mock echo channel: the device derives each reply line from the command
that produced it, replying in command order. -/
def deviceReply (c : String) : String := "R:" ++ c

/-- The command the telemetry loop writes (src/main.go:58). -/
def telemetryCmd : String := "<GET_ALL;>"

/-- A command a foreground set request writes (src/main.go:230-237). -/
def setCmd : String := "<SET_V00=255;>"

/-- State of the shared serial channel and of the two concurrent tasks that
use it in the source with no lock: the background telemetry loop
(`DB_routine`, src/main.go:57-80) and a foreground request handler
(`setHandler` / `singleOutputRead`, src/main.go:227-319).  Both write the
package-level `arduino` handle and read the next available reply line;
`pending` holds reply lines produced by the device and not yet read. -/
structure RaceState where
  pending : List String
  wrote0 : Bool
  wrote1 : Bool
  recv0 : Option String
  recv1 : Option String
deriving DecidableEq

/-- Initial state: nothing written, nothing received. -/
def raceInit : RaceState := ⟨[], false, false, none, none⟩

/-- One scheduler step: run the next instruction of the chosen task
(`false` = telemetry task, `true` = handler task).  Each task first writes
its command (the device appends the derived reply), then reads the first
pending reply line.  No mutual exclusion constrains the interleaving,
mirroring the lock-free source. -/
def raceStep (s : RaceState) (t : Bool) : RaceState :=
  if t = false then
    if s.wrote0 = false then
      ⟨s.pending ++ [deviceReply telemetryCmd], true, s.wrote1, s.recv0, s.recv1⟩
    else
      match s.recv0, s.pending with
      | none, r :: rest => ⟨rest, s.wrote0, s.wrote1, some r, s.recv1⟩
      | _, _ => s
  else
    if s.wrote1 = false then
      ⟨s.pending ++ [deviceReply setCmd], s.wrote0, true, s.recv0, s.recv1⟩
    else
      match s.recv1, s.pending with
      | none, r :: rest => ⟨rest, s.wrote0, s.wrote1, s.recv0, some r⟩
      | _, _ => s

/-- Run a schedule (interleaving) from the initial state. -/
def raceRun (sched : List Bool) : RaceState :=
  sched.foldl raceStep raceInit

/-- Decimal digit character. -/
def decChar (n : Nat) : Char := Char.ofNat (48 + n)

/-- Lowercase hexadecimal digit character, as in the device's wire text. -/
def hexChar (n : Nat) : Char := if n < 10 then Char.ofNat (48 + n) else Char.ofNat (87 + n)

/-- Decimal digits of a number, most significant first.  The first argument
is fuel; the quotient shrinks at every step, so fuel equal to the number
itself (as `toDec` passes) is never exhausted. -/
def decDigitsAux : Nat → Nat → List Char
  | _, 0 => []
  | 0, _ + 1 => []
  | f + 1, n + 1 => decDigitsAux f ((n + 1) / 10) ++ [decChar ((n + 1) % 10)]

/-- Hexadecimal digits of a number, most significant first, fuelled like
`decDigitsAux`. -/
def hexDigitsAux : Nat → Nat → List Char
  | _, 0 => []
  | 0, _ + 1 => []
  | f + 1, n + 1 => hexDigitsAux f ((n + 1) / 16) ++ [hexChar ((n + 1) % 16)]

/-- The decimal text of a number, as a caller supplies in a set request. -/
def toDec (n : Nat) : String := if n = 0 then "0" else String.mk (decDigitsAux n n)

/-- The hexadecimal text of a number, as the device writes a level field. -/
def toHex (n : Nat) : String := if n = 0 then "0" else String.mk (hexDigitsAux n n)

/-- A well-formed reply line of 36 fields and 216 characters: long enough
to separate the two validator variants. -/
def bigFrame : String :=
  "V00=0;V01=0;V02=0;V03=0;V04=0;V05=0;V06=0;V07=0;V08=0;V09=0;V10=0;V11=0;V12=0;V13=0;V14=0;V15=0;V16=0;V17=0;V18=0;V19=0;V20=0;V21=0;V22=0;V23=0;V24=0;V25=0;V26=0;V27=0;V28=0;V29=0;V30=0;V31=0;V32=0;V33=0;V34=0;V35=0;"

/-- A well-formed reply line of 29 fields and 174 characters, inside the
length range where both validator variants apply their common checks. -/
def midFrame : String :=
  "V00=0;V01=0;V02=0;V03=0;V04=0;V05=0;V06=0;V07=0;V08=0;V09=0;V10=0;V11=0;V12=0;V13=0;V14=0;V15=0;V16=0;V17=0;V18=0;V19=0;V20=0;V21=0;V22=0;V23=0;V24=0;V25=0;V26=0;V27=0;V28=0;"

/-- A reply line that passes `outputIsValid` (29 pattern matches, sentinel,
terminator, 175 characters) but whose last segment `XYZ=9x` fails the
base-10 parse inside `outputToMap`, making `check(err)` panic. -/
def badFieldLine : String :=
  "V00=0;V01=0;V02=0;V03=0;V04=0;V05=0;V06=0;V07=0;V08=0;V09=0;V10=0;V11=0;V12=0;V13=0;V14=0;V15=0;V16=0;V17=0;V18=0;V19=0;V20=0;V21=0;V22=0;V23=0;V24=0;V25=0;V26=0;V27=0;XYZ=9x;"

/-- Like `badFieldLine`, for the polling path: segment `T09=zz` matches the
field pattern (word characters) but `zz` does not parse in base 10. -/
def badBaseLine : String :=
  "V00=0;V01=0;V02=0;V03=0;V04=0;V05=0;V06=0;V07=0;V08=0;V09=0;V10=0;V11=0;V12=0;V13=0;V14=0;V15=0;V16=0;V17=0;V18=0;V19=0;V20=0;V21=0;V22=0;V23=0;V24=0;V25=0;V26=0;V27=0;T09=zz;"

theorem getLast?_eq_some_append : ∀ (l : List Char) (c : Char),
    l.getLast? = some c ↔ ∃ t, l = t ++ [c]
  | [], c => by simp
  | [a], c => by
    simp only [List.getLast?_singleton, Option.some.injEq]
    constructor
    · intro h; exact ⟨[], by simp [h]⟩
    · rintro ⟨t, ht⟩
      cases t with
      | nil => simpa using ht
      | cons x xs =>
        have hl := congrArg List.length ht
        simp only [List.length_cons, List.length_append, List.length_nil] at hl
        omega
  | a :: b :: bs, c => by
    rw [List.getLast?_cons_cons, getLast?_eq_some_append (b :: bs) c]
    constructor
    · rintro ⟨t, ht⟩; exact ⟨a :: t, by simp [ht]⟩
    · rintro ⟨t, ht⟩
      cases t with
      | nil => simp at ht
      | cons x xs =>
        simp only [List.cons_append, List.cons.injEq] at ht
        exact ⟨xs, ht.2⟩

theorem stringInSlice_iff (a : String) : ∀ l : List String,
    stringInSlice a l = true ↔ a ∈ l
  | [] => by simp [stringInSlice]
  | b :: rest => by
    rw [stringInSlice]
    by_cases h : b = a
    · simp [h]
    · rw [if_neg h, stringInSlice_iff a rest]
      simp only [List.mem_cons]
      constructor
      · intro hr; exact Or.inr hr
      · rintro (hab | hr)
        · exact absurd hab.symm h
        · exact hr

theorem vxx_not_other (p : String) (h : p ∈ VxxParams) :
    stringInSlice p pumpParams = false ∧ stringInSlice p TxxParams = false := by
  fin_cases h <;> exact ⟨rfl, rfl⟩

theorem txx_not_other (p : String) (h : p ∈ TxxParams) :
    stringInSlice p pumpParams = false ∧ stringInSlice p VxxParams = false := by
  fin_cases h <;> exact ⟨rfl, rfl⟩

set_option maxRecDepth 400000

/-- Claim C1.  The source shares the package-level serial handle between the
telemetry goroutine and the HTTP handlers with no lock, so round trips can
interleave: under the schedule write-telemetry, write-set, read-by-handler,
read-by-telemetry on an echoing device, the handler receives the reply
derived from the telemetry command, and the telemetry task the reply
derived from the set command — each caller gets the other's reply, against
the claimed mutual exclusion. -/
theorem c1_channel_interleaving :
    (raceRun [false, true, true, false]).recv1 = some (deviceReply telemetryCmd) ∧
    (raceRun [false, true, true, false]).recv0 = some (deviceReply setCmd) ∧
    deviceReply telemetryCmd ≠ deviceReply setCmd :=
  ⟨rfl, rfl, by decide⟩

/-- Claim C2.  The reply-line validator accepts a line exactly when it is at
least 169 characters long, begins with the sentinel `V00=`, ends with the
terminator, and the field-pattern matcher counts at least 28 well-formed
segments; failing any of these, it returns false. -/
theorem c2_reply_validation (s : String) :
    outputIsValid s = true ↔
      169 ≤ s.length ∧ s.data.take 4 = ['V', '0', '0', '='] ∧
      (∃ t, s.data = t ++ [';']) ∧ 28 ≤ countMatches s := by
  unfold outputIsValid
  by_cases h : 168 < s.length
  · rw [if_pos h]
    by_cases h2 : s.data.take 4 = ['V', '0', '0', '='] ∧
        s.data.getLast? = some ';' ∧ 28 ≤ countMatches s
    · rw [if_pos h2]
      obtain ⟨ha, hb, hc⟩ := h2
      exact iff_of_true rfl ⟨h, ha, (getLast?_eq_some_append s.data ';').mp hb, hc⟩
    · rw [if_neg h2]
      constructor
      · intro hf; exact absurd hf (by simp)
      · rintro ⟨-, ha, hb, hc⟩
        exact absurd ⟨ha, (getLast?_eq_some_append s.data ';').mpr hb, hc⟩ h2
  · rw [if_neg h]
    constructor
    · intro hf; exact absurd hf (by simp)
    · rintro ⟨hlen, -⟩; omega

theorem c2_reply_validation_witness :
    outputIsValid "" = true ↔
      169 ≤ ("" : String).length ∧ ("" : String).data.take 4 = ['V', '0', '0', '='] ∧
      (∃ t, ("" : String).data = t ++ [';']) ∧ 28 ≤ countMatches "" :=
  c2_reply_validation ""

/-- Claim C5.  A set request with an unknown parameter, or with a known
parameter whose value fails validation, is answered with the matching
validation error and writes nothing to the serial channel. -/
theorem c5_reject_before_channel (p v : String) (rs : List String) :
    (URLParamValid p = false → setHandler p v rs = ([], SetResponse.errParam)) ∧
    (URLParamValid p = true → URLValueValid p v = false →
      setHandler p v rs = ([], SetResponse.errValue)) := by
  constructor
  · intro h; simp [setHandler, h]
  · intro h1 h2; simp [setHandler, h1, h2]

theorem c5_reject_before_channel_witness :
    setHandler "unknownParam" "1" [] = ([], SetResponse.errParam) ∧
    setHandler "V00" "999" [] = ([], SetResponse.errValue) :=
  ⟨(c5_reject_before_channel "unknownParam" "1" []).1 (by decide),
   (c5_reject_before_channel "V00" "999" []).2 (by decide) (by decide)⟩

/-- Claim C6.  The two near-identical reply validators diverge only in
their length bounds: the 216-character well-formed line `bigFrame` is
accepted by the main validator and rejected by the unnamed variant (which
also demands length below 215), while on every line of length 169 through
214 the two agree. -/
theorem c6_validators_divergence :
    (outputIsValid bigFrame = true ∧ outputIsValidU bigFrame = false) ∧
    (∀ s : String, 168 < s.length → s.length < 215 →
      outputIsValid s = outputIsValidU s) := by
  refine ⟨⟨by decide, by decide⟩, ?_⟩
  intro s h1 h2
  unfold outputIsValid outputIsValidU
  rw [if_pos h1, if_pos (show 168 < s.length ∧ s.length < 215 from ⟨h1, h2⟩)]

theorem c6_validators_divergence_witness :
    outputIsValid midFrame = outputIsValidU midFrame :=
  c6_validators_divergence.2 midFrame (by decide) (by decide)

/-- Claim C8.  One telemetry cycle: a line failing validation is skipped
with no sink write, and a sink write only happens on a validated line; but
the line `badFieldLine` passes validation and still produces no sink write,
because its segment `XYZ=9x` fails the base-10 parse and `check(err)`
panics — the write-iff-validated direction fails on the code. -/
theorem c8_telemetry_sink :
    (outputIsValid badFieldLine = true ∧ dbCycle badFieldLine = CycleResult.panicked) ∧
    (∀ line : String, outputIsValid line = false → dbCycle line = CycleResult.skipped) ∧
    (∀ (line : String) (f : Frame), dbCycle line = CycleResult.wrote f →
      outputIsValid line = true) := by
  refine ⟨⟨by decide, by decide⟩, ?_, ?_⟩
  · intro line h; simp [dbCycle, h]
  · intro line f h
    by_cases hv : outputIsValid line
    · exact hv
    · simp [dbCycle, hv] at h

theorem c8_telemetry_sink_witness :
    dbCycle "garbled" = CycleResult.skipped :=
  c8_telemetry_sink.2.1 "garbled" (by decide)

/-- Claim C9.  The line `badBaseLine` passes the full reply validation, yet
its segment `T09=zz` does not parse in its class's base, so `outputToMap`
hits `check(err)`: confirmation polling reaches the aborting branch
(`panicked`) on a reply that the claim says must be absorbed as transient —
the terminating error branch is reachable. -/
theorem c9_decode_panic_reachable :
    outputIsValid badBaseLine = true ∧ outputToMap badBaseLine = none ∧
    pollVxx "V00" 5 [badBaseLine] = (["<GET_ALL;>"], PollResult.panicked) :=
  ⟨by decide, by decide, by decide⟩

theorem pumpLoop_on_first (f : Frame) (l2 : List Frame) :
    ∀ l1 : List Frame, (∀ g ∈ l1, List.lookup "PUMP" g ≠ some 1) →
      List.lookup "PUMP" f = some 1 →
      pumpLoop "PUMP_ON" (l1 ++ f :: l2) = some f
  | [], _, hf => by simp [pumpLoop, hf]
  | g :: gs, hmiss, hf => by
    have hg := hmiss g (by simp)
    rw [List.cons_append, pumpLoop, if_neg (fun hc => hg hc.2), if_neg (fun hc => by
      have : ("PUMP_ON" : String) ≠ "PUMP_OFF" := by decide
      exact this hc.1)]
    exact pumpLoop_on_first f l2 gs (fun x hx => hmiss x (by simp [hx])) hf

theorem pumpLoop_off_first (f : Frame) (l2 : List Frame) :
    ∀ l1 : List Frame, (∀ g ∈ l1, List.lookup "PUMP" g ≠ some 0) →
      List.lookup "PUMP" f = some 0 →
      pumpLoop "PUMP_OFF" (l1 ++ f :: l2) = some f
  | [], _, hf => by
    rw [List.nil_append, pumpLoop, if_neg (fun hc => by
      have : ("PUMP_OFF" : String) ≠ "PUMP_ON" := by decide
      exact this hc.1), if_pos ⟨rfl, hf⟩]
  | g :: gs, hmiss, hf => by
    have hg := hmiss g (by simp)
    rw [List.cons_append, pumpLoop, if_neg (fun hc => by
      have : ("PUMP_OFF" : String) ≠ "PUMP_ON" := by decide
      exact this hc.1), if_neg (fun hc => hg hc.2)]
    exact pumpLoop_off_first f l2 gs (fun x hx => hmiss x (by simp [hx])) hf

theorem pumpLoop_on_none : ∀ l : List Frame,
    (∀ g ∈ l, List.lookup "PUMP" g ≠ some 1) → pumpLoop "PUMP_ON" l = none
  | [], _ => rfl
  | g :: gs, hmiss => by
    have hg := hmiss g (by simp)
    rw [pumpLoop, if_neg (fun hc => hg hc.2), if_neg (fun hc => by
      have : ("PUMP_ON" : String) ≠ "PUMP_OFF" := by decide
      exact this hc.1)]
    exact pumpLoop_on_none gs (fun x hx => hmiss x (by simp [hx]))

theorem pumpLoop_off_none : ∀ l : List Frame,
    (∀ g ∈ l, List.lookup "PUMP" g ≠ some 0) → pumpLoop "PUMP_OFF" l = none
  | [], _ => rfl
  | g :: gs, hmiss => by
    have hg := hmiss g (by simp)
    rw [pumpLoop, if_neg (fun hc => by
      have : ("PUMP_OFF" : String) ≠ "PUMP_ON" := by decide
      exact this hc.1), if_neg (fun hc => hg hc.2)]
    exact pumpLoop_off_none gs (fun x hx => hmiss x (by simp [hx]))

/-- Claim C7.  Toggle confirmation over a fed sequence of decoded
snapshots returns at exactly the first snapshot whose `PUMP` field equals
the expected encoding — 1 for `PUMP_ON`, 0 for `PUMP_OFF` — yielding that
snapshot, and does not return while no snapshot in the sequence matches. -/
theorem c7_toggle_confirmation :
    (∀ (l1 : List Frame) (f : Frame) (l2 : List Frame),
      (∀ g ∈ l1, List.lookup "PUMP" g ≠ some 1) → List.lookup "PUMP" f = some 1 →
      pumpLoop "PUMP_ON" (l1 ++ f :: l2) = some f) ∧
    (∀ (l1 : List Frame) (f : Frame) (l2 : List Frame),
      (∀ g ∈ l1, List.lookup "PUMP" g ≠ some 0) → List.lookup "PUMP" f = some 0 →
      pumpLoop "PUMP_OFF" (l1 ++ f :: l2) = some f) ∧
    (∀ l : List Frame, (∀ g ∈ l, List.lookup "PUMP" g ≠ some 1) →
      pumpLoop "PUMP_ON" l = none) ∧
    (∀ l : List Frame, (∀ g ∈ l, List.lookup "PUMP" g ≠ some 0) →
      pumpLoop "PUMP_OFF" l = none) :=
  ⟨fun l1 f l2 hm hf => pumpLoop_on_first f l2 l1 hm hf,
   fun l1 f l2 hm hf => pumpLoop_off_first f l2 l1 hm hf,
   pumpLoop_on_none, pumpLoop_off_none⟩

theorem c7_toggle_confirmation_witness :
    pumpLoop "PUMP_ON" [[(("PUMP" : String), (0 : Int))], [("PUMP", 1)], [("PUMP", 0)]] =
      some [(("PUMP" : String), (1 : Int))] :=
  c7_toggle_confirmation.1 [[(("PUMP" : String), (0 : Int))]] [("PUMP", 1)]
    [[("PUMP", 0)]] (by decide) (by decide)

theorem parseIntGo_pos_length (v : String) (n : Int) (h : parseIntGo 10 v = some n) :
    0 < v.length := by
  obtain ⟨l⟩ := v
  cases l with
  | nil =>
    have hnone : parseIntGo 10 (String.mk []) = none := rfl
    rw [hnone] at h
    exact Option.noConfusion h
  | cons c cs => exact Nat.succ_pos cs.length

theorem pump_value_iff (p : String) (hv : stringInSlice p VxxParams = false)
    (ht : stringInSlice p TxxParams = false) (hpump : stringInSlice p pumpParams = true)
    (v : String) : URLValueValid p v = true ↔ v = "" := by
  obtain ⟨l⟩ := v
  cases l with
  | nil =>
    apply iff_of_true
    · unfold URLValueValid
      rw [if_neg (by decide : ¬ (0 < (String.mk []).length)), if_pos hpump]
    · rfl
  | cons c cs =>
    apply iff_of_false
    · intro habs
      unfold URLValueValid at habs
      rw [if_pos (show 0 < (String.mk (c :: cs)).length from Nat.succ_pos cs.length)] at habs
      split at habs
      · exact absurd habs (by simp)
      · split at habs
        · rename_i hc; rw [hv] at hc; simp at hc
        · split at habs
          · rename_i hc; rw [ht] at hc; simp at hc
          · exact absurd habs (by simp)
    · intro habs
      have hlen := congrArg String.length habs
      simp only [String.length] at hlen
      exact absurd hlen (by simp)

/-- Claim C10.  At the set interface, value validation accepts a toggle
parameter exactly when the supplied value string is empty, and rejects the
empty value for every level or threshold parameter. -/
theorem c10_toggle_empty_value :
    (∀ v : String, (URLValueValid "PUMP_ON" v = true ↔ v = "") ∧
      (URLValueValid "PUMP_OFF" v = true ↔ v = "")) ∧
    (∀ p : String, p ∈ VxxParams ∨ p ∈ TxxParams → URLValueValid p "" = false) := by
  constructor
  · intro v
    exact ⟨pump_value_iff "PUMP_ON" (by decide) (by decide) (by decide) v,
           pump_value_iff "PUMP_OFF" (by decide) (by decide) (by decide) v⟩
  · intro p hp
    have hpump : stringInSlice p pumpParams = false := by
      rcases hp with h | h
      · exact (vxx_not_other p h).1
      · exact (txx_not_other p h).1
    unfold URLValueValid
    rw [if_neg (by decide : ¬ (0 < ("" : String).length)),
      if_neg (fun hc => by rw [hpump] at hc; exact absurd hc (by simp))]

theorem c10_toggle_empty_value_witness :
    URLValueValid "PUMP_ON" "" = true ∧ URLValueValid "PUMP_ON" "1" = false ∧
    URLValueValid "V00" "" = false :=
  ⟨(c10_toggle_empty_value.1 "").1.mpr rfl,
   by
    have h := (c10_toggle_empty_value.1 "1").1
    cases habs : URLValueValid "PUMP_ON" "1"
    · rfl
    · exact absurd (h.mp habs) (by decide),
   c10_toggle_empty_value.2 "V00" (Or.inl (by decide))⟩

/-- Claim C3, counterexample.  The claim says value validation returns
false whenever the value string is non-numeric, for every parameter name;
but the empty string — which parses to no integer, hence is non-numeric —
is accepted for the toggle parameter `PUMP_ON`. -/
theorem c3_value_validation_counterexample :
    parseIntGo 10 "" = none ∧ URLValueValid "PUMP_ON" "" = true :=
  ⟨rfl, rfl⟩

/-- Claim C3, amended.  Value validation returns false when the value is
non-empty and non-numeric, or numeric and negative; for a level parameter
it returns true exactly when the value parses to an integer in 0..255, for
a threshold parameter exactly when it parses to an integer in 0..999, so
values at or above 256 respectively 1000 are rejected. -/
theorem c3_value_validation_amended (p v : String) :
    ((v ≠ "" ∧ parseIntGo 10 v = none) → URLValueValid p v = false) ∧
    (∀ n : Int, parseIntGo 10 v = some n → n < 0 → URLValueValid p v = false) ∧
    (p ∈ VxxParams → (URLValueValid p v = true ↔
      ∃ n : Int, parseIntGo 10 v = some n ∧ 0 ≤ n ∧ n < 256)) ∧
    (p ∈ TxxParams → (URLValueValid p v = true ↔
      ∃ n : Int, parseIntGo 10 v = some n ∧ 0 ≤ n ∧ n < 1000)) := by
  refine ⟨?_, ?_, ?_, ?_⟩
  · rintro ⟨hne, hparse⟩
    have hlen : 0 < v.length := by
      obtain ⟨l⟩ := v
      cases l with
      | nil => exact absurd rfl hne
      | cons c cs => exact Nat.succ_pos cs.length
    unfold URLValueValid
    rw [if_pos hlen]
    split
    · rfl
    · rename_i n heq; rw [hparse] at heq; exact Option.noConfusion heq
  · intro n hparse hneg
    have hlen := parseIntGo_pos_length v n hparse
    unfold URLValueValid
    rw [if_pos hlen]
    split
    · rfl
    · rename_i m heq
      have hm : m = n := Option.some.inj (heq.symm.trans hparse)
      rw [if_neg (fun hc => by omega), if_neg (fun hc => by omega)]
  · intro hmem
    have hsv := (stringInSlice_iff p VxxParams).mpr hmem
    have hnot := vxx_not_other p hmem
    constructor
    · intro htrue
      by_cases hlen : 0 < v.length
      · unfold URLValueValid at htrue
        rw [if_pos hlen] at htrue
        split at htrue
        · exact absurd htrue (by simp)
        · rename_i n heq
          split at htrue
          · rename_i hc; exact ⟨n, heq, hc.2.1, hc.2.2⟩
          · split at htrue
            · rename_i hc; rw [hnot.2] at hc; simp at hc
            · exact absurd htrue (by simp)
      · unfold URLValueValid at htrue
        rw [if_neg hlen, if_neg (fun hc => by rw [hnot.1] at hc; simp at hc)] at htrue
        exact absurd htrue (by simp)
    · rintro ⟨n, hparse, h0, h256⟩
      have hlen := parseIntGo_pos_length v n hparse
      unfold URLValueValid
      rw [if_pos hlen]
      split
      · rename_i heq; rw [hparse] at heq; exact Option.noConfusion heq
      · rename_i m heq
        have hm : m = n := Option.some.inj (heq.symm.trans hparse)
        rw [if_pos ⟨hsv, by omega, by omega⟩]
  · intro hmem
    have hst := (stringInSlice_iff p TxxParams).mpr hmem
    have hnot := txx_not_other p hmem
    constructor
    · intro htrue
      by_cases hlen : 0 < v.length
      · unfold URLValueValid at htrue
        rw [if_pos hlen] at htrue
        split at htrue
        · exact absurd htrue (by simp)
        · rename_i n heq
          split at htrue
          · rename_i hc; rw [hnot.2] at hc; simp at hc
          · split at htrue
            · rename_i hc; exact ⟨n, heq, hc.2.1, hc.2.2⟩
            · exact absurd htrue (by simp)
      · unfold URLValueValid at htrue
        rw [if_neg hlen, if_neg (fun hc => by rw [hnot.1] at hc; simp at hc)] at htrue
        exact absurd htrue (by simp)
    · rintro ⟨n, hparse, h0, h1000⟩
      have hlen := parseIntGo_pos_length v n hparse
      unfold URLValueValid
      rw [if_pos hlen]
      split
      · rename_i heq; rw [hparse] at heq; exact Option.noConfusion heq
      · rename_i m heq
        have hm : m = n := Option.some.inj (heq.symm.trans hparse)
        by_cases hvxx : stringInSlice p VxxParams = true ∧ 0 ≤ m ∧ m < 256
        · rw [hnot.2] at hvxx; exact absurd hvxx.1 (by simp)
        · rw [if_neg hvxx, if_pos ⟨hst, by omega, by omega⟩]

theorem c3_value_validation_witness :
    URLValueValid "V00" "255" = true ∧ URLValueValid "V00" "256" = false ∧
    URLValueValid "T01" "999" = true ∧ URLValueValid "T01" "1000" = false ∧
    URLValueValid "V00" "-1" = false ∧ URLValueValid "V00" "abc" = false :=
  ⟨((c3_value_validation_amended "V00" "255").2.2.1 (by decide)).mpr
      ⟨255, by decide, by decide, by decide⟩,
   by
    have h := (c3_value_validation_amended "V00" "256").2.2.1 (by decide)
    cases habs : URLValueValid "V00" "256"
    · rfl
    · obtain ⟨n, hn, -, hlt⟩ := h.mp habs
      have : n = 256 := by
        have : parseIntGo 10 "256" = some 256 := by decide
        exact Option.some.inj (hn.symm.trans this)
      omega,
   ((c3_value_validation_amended "T01" "999").2.2.2 (by decide)).mpr
      ⟨999, by decide, by decide, by decide⟩,
   by
    have h := (c3_value_validation_amended "T01" "1000").2.2.2 (by decide)
    cases habs : URLValueValid "T01" "1000"
    · rfl
    · obtain ⟨n, hn, -, hlt⟩ := h.mp habs
      have : n = 1000 := by
        have : parseIntGo 10 "1000" = some 1000 := by decide
        exact Option.some.inj (hn.symm.trans this)
      omega,
   (c3_value_validation_amended "V00" "-1").2.1 (-1) (by decide) (by decide),
   (c3_value_validation_amended "V00" "abc").1 ⟨by decide, by decide⟩⟩

/-- Claim C4.  For every level value v in 0..255, a set request encodes to
the command line SET_V00=decimal(v) in angle-bracket framing, the decode of
a reply segment carrying the hexadecimal text of v yields the integer v for
that field, and the confirmation comparison — the decoded map value against
the base-10 parse of the requested value — succeeds; in particular value
255 encodes the documented command and a reply segment `V00=ff` decodes to
255. -/
theorem c4_level_roundtrip :
    (∀ v : Nat, v < 256 →
      encodeCommand "V00" (toDec v) = "<SET_V00=" ++ toDec v ++ ";>" ∧
      outputToMap ("V00=" ++ toHex v ++ ";") = some [("V00", (v : Int))] ∧
      List.lookup "V00" [(("V00" : String), (v : Int))] = some (v : Int) ∧
      parseIntGo 10 (toDec v) = some (v : Int)) ∧
    encodeCommand "V00" "255" = "<SET_V00=255;>" ∧
    outputToMap "V00=ff;" = some [("V00", 255)] :=
  ⟨by decide, rfl, by decide⟩

theorem c4_level_roundtrip_witness :
    encodeCommand "V00" (toDec 255) = "<SET_V00=" ++ toDec 255 ++ ";>" ∧
    outputToMap ("V00=" ++ toHex 255 ++ ";") = some [("V00", (255 : Int))] ∧
    List.lookup "V00" [(("V00" : String), (255 : Int))] = some (255 : Int) ∧
    parseIntGo 10 (toDec 255) = some (255 : Int) :=
  c4_level_roundtrip.1 255 (by decide)
